import Mathlib

/-!
Verification of the `parasocial` memory subsystem against its specification.

The definitions below are a shallow embedding of the TypeScript sources:
* `src/lib/memory.ts` (`MemoryManager`: `saveMemory`, `deleteMemory`,
  `retrieveRelevantMemory`, `extractKeywords`),
* `src/lib/crypto.ts` (`getOrCreateKey`, `encryptData`, `decryptData`),
* `src/types/index.ts` (`MemoryEntry`).

Modelling conventions:
* JavaScript `number` is modelled as `ℚ`.  The only arithmetic performed on
  scores is `length * 2 + importance / 10` and comparisons; for such values a
  JS double behaves exactly like the rational it denotes whenever the decimal
  fractions involved are representable, and every comparison used below
  (`> 0`, the sort comparator `b.score - a.score`) is sign-correct for IEEE
  doubles, so `ℚ` is a faithful model for the properties at issue.
* The IndexedDB object store (keyPath `id`, operations `add`, `delete`,
  `getAll`) is modelled as a `List MemoryEntry`, standing for the sequence of
  records that `getAll` returns.  `add` rejects when a record with the same
  key already exists, hence `saveMemory` returns an `Option`.
* `Array.prototype.sort` with comparator `(a, b) => b.score - a.score` is a
  stable sort for the total preorder "score ≥"; any two stable sorts of the
  same list under the same total preorder coincide, so it is modelled by
  `List.insertionSort` with the relation `scoreGE`.
* `text.split(/\s+/)` treats a whole whitespace run as one separator.  The
  model splits at every whitespace character instead, which only inserts
  extra empty tokens between consecutive whitespace characters; those are
  removed by the subsequent `length > 3` filter, so `extractKeywords` is
  unaffected.
-/

/-- Characters matched by the JS regex class `\w`: `[A-Za-z0-9_]`. -/
def isWordChar (c : Char) : Bool :=
  (97 ≤ c.toNat && c.toNat ≤ 122) || (65 ≤ c.toNat && c.toNat ≤ 90) ||
    (48 ≤ c.toNat && c.toNat ≤ 57) || c.toNat == 95

/-- ASCII whitespace matched by the JS regex class `\s`
(the non-ASCII whitespace code points never arise in the claims). -/
def isJsSpace (c : Char) : Bool :=
  c.toNat == 32 || c.toNat == 9 || c.toNat == 10 ||
    c.toNat == 11 || c.toNat == 12 || c.toNat == 13

/-- `String.prototype.toLowerCase` on one character (ASCII range, which is
all the word characters that survive the `\w` strip). -/
def jsLowerChar (c : Char) : Char :=
  if 65 ≤ c.toNat && c.toNat ≤ 90 then Char.ofNat (c.toNat + 32) else c

/-- One splitting step of `split(/\s+/)` modulo extra empty tokens (see the
header comment): `cur` is the reversed token being accumulated. -/
def splitWsGo (cur : List Char) : List Char → List (List Char)
  | [] => [cur.reverse]
  | c :: rest =>
    if isJsSpace c then cur.reverse :: splitWsGo [] rest
    else splitWsGo (c :: cur) rest

/-- `text.split(/\s+/)` (modulo extra empty tokens, see header comment). -/
def splitWs (cs : List Char) : List (List Char) :=
  splitWsGo [] cs

/-- The stop-word list of `MemoryManager.extractKeywords`, verbatim
(note the upper-case `'I'`, exactly as in the source). -/
def stopwords : List String :=
  ["the", "is", "at", "which", "on", "and", "a", "an", "I", "you"]

/-- `MemoryManager.extractKeywords`:
`text.toLowerCase().replace(/[^\w\s]/g, '').split(/\s+/)
  .filter(word => word.length > 3 && !stopwords.includes(word))`. -/
def extractKeywords (text : String) : List String :=
  let lowered := text.data.map jsLowerChar
  let stripped := lowered.filter (fun c => isWordChar c || isJsSpace c)
  let toks := (splitWs stripped).map (fun cs => String.mk cs)
  toks.filter (fun w => 3 < w.length && !(stopwords.contains w))

/-- `MemoryEntry` (`src/types/index.ts`): the interface has exactly the
fields `id`, `content`, `tags`, `importance`, `timestamp` — in particular no
ciphertext, nonce or embedding field. -/
structure MemoryEntry where
  id : String
  content : String
  tags : List String
  importance : ℚ
  timestamp : ℚ
  deriving DecidableEq, Repr

/-- The entry literal built inside `saveMemory`: the plaintext `content` is
stored as-is, `tags := extractKeywords content`, `importance` as supplied. -/
def mkEntry (id : String) (content : String) (importance : ℚ) (now : ℚ) :
    MemoryEntry :=
  { id := id, content := content, tags := extractKeywords content,
    importance := importance, timestamp := now }

/-- `MemoryManager.saveMemory(content, importance = 5)`.  `id` models
`crypto.randomUUID()` and `now` models `Date.now()`, both passed in as
inputs.  IndexedDB `add` rejects when the key already exists (`none`). -/
def saveMemory (store : List MemoryEntry) (id : String) (now : ℚ)
    (content : String) (importance : ℚ) : Option (List MemoryEntry) :=
  if store.any (fun e => e.id == id) then none
  else some (store ++ [mkEntry id content importance now])

/-- `saveMemory` with the `importance` parameter omitted: the TS default
parameter `importance: number = 5`. -/
def saveMemoryDefault (store : List MemoryEntry) (id : String) (now : ℚ)
    (content : String) : Option (List MemoryEntry) :=
  saveMemory store id now content 5

/-- `MemoryManager.deleteMemory(id)`: IndexedDB `delete` removes the record
with that key if present (keys are unique under keyPath `id`) and is a
no-op otherwise. -/
def deleteMemory (store : List MemoryEntry) (id : String) : List MemoryEntry :=
  store.filter (fun e => !(e.id == id))

/-- The score computed inside `retrieveRelevantMemory`:
`m.tags.filter(t => keywords.includes(t)).length * 2 + (m.importance / 10)`. -/
def score (keywords : List String) (m : MemoryEntry) : ℚ :=
  ((m.tags.filter (fun t => keywords.contains t)).length : ℚ) * 2 +
    m.importance / 10

/-- The `.map` stage of `retrieveRelevantMemory`: each entry becomes the
pair `{content, score}`. -/
def scoredEntries (store : List MemoryEntry) (keywords : List String) :
    List (String × ℚ) :=
  store.map (fun m => (m.content, score keywords m))

/-- The `.filter(m => m.score > 0)` stage. -/
def keptEntries (store : List MemoryEntry) (keywords : List String) :
    List (String × ℚ) :=
  (scoredEntries store keywords).filter (fun p => decide (0 < p.2))

/-- "score of `a` is at least score of `b`": the total preorder realised by
the JS comparator `(a, b) => b.score - a.score`. -/
def scoreGE (a b : String × ℚ) : Prop :=
  b.2 ≤ a.2

instance : DecidableRel scoreGE :=
  fun a b => inferInstanceAs (Decidable (b.2 ≤ a.2))

instance : IsTotal (String × ℚ) scoreGE :=
  ⟨fun a b => le_total b.2 a.2⟩

instance : IsTrans (String × ℚ) scoreGE :=
  ⟨fun _ _ _ h1 h2 => le_trans h2 h1⟩

/-- The `.sort((a, b) => b.score - a.score)` stage (stable descending sort
by score; see header comment). -/
def rankedEntries (store : List MemoryEntry) (keywords : List String) :
    List (String × ℚ) :=
  List.insertionSort scoreGE (keptEntries store keywords)

/-- `MemoryManager.retrieveRelevantMemory(query)`: map to scored pairs,
keep positive scores, sort by descending score, take 5, project contents. -/
def retrieveRelevantMemory (store : List MemoryEntry) (query : String) :
    List String :=
  ((rankedEntries store (extractKeywords query)).take 5).map Prod.fst

/-- The spec's Retrieval Scorer formula, written from the spec's words for
comparison with `score`: `10 * cosineSimilarity + 2 * |tags ∩ keywords| +
importance / 10`, where the cosine term is `0` because a `MemoryEntry` has
no embedding field (the spec itself prescribes `0` when an embedding is
absent), and the keyword term counts the tag set ∩ keyword set. -/
def specScore (queryKeywords : List String) (m : MemoryEntry) : ℚ :=
  10 * 0 +
    2 * ((m.tags.dedup.filter (fun t => queryKeywords.contains t)).length : ℚ) +
    m.importance / 10

/-- Lowercase letter, digit or underscore: the characters that can appear
in an `extractKeywords` token. -/
def isLowerTokenChar (c : Char) : Bool :=
  (97 ≤ c.toNat && c.toNat ≤ 122) || (48 ≤ c.toNat && c.toNat ≤ 57) ||
    c.toNat == 95

/-- The process state visible to `memory.ts` and `crypto.ts` together:
the IndexedDB entry collection and the `localStorage` slot
`'parasocial-mem-key'` holding the exported key bytes (if any).
`MemoryManager` never reads or writes `keySlot`. -/
structure AppState where
  entries : List MemoryEntry
  keySlot : Option (List Nat)
  deriving Repr

/-- `saveMemory` at the level of the whole process state: it touches only
`entries` and never consults `keySlot` (memory.ts does not import
crypto.ts). -/
def saveMemoryApp (s : AppState) (id : String) (now : ℚ) (content : String)
    (importance : ℚ) : Option AppState :=
  (saveMemory s.entries id now content importance).map
    (fun es => { s with entries := es })

/-- `retrieveRelevantMemory` at the level of the whole process state:
again only `entries` is consulted. -/
def retrieveApp (s : AppState) (query : String) : List String :=
  retrieveRelevantMemory s.entries query

/-- Result of one `getOrCreateKey()` call: the key's raw bytes, the
`localStorage` slot afterwards, and how many `localStorage` reads
(`getItem`) and writes (`setItem`) the call performed. -/
structure KeyCall where
  key : List Nat
  slot : Option (List Nat)
  storageReads : Nat
  storageWrites : Nat
  deriving DecidableEq, Repr

/-- `getOrCreateKey` (`src/lib/crypto.ts`).  The body begins with
`localStorage.getItem(KEY_NAME)` unconditionally, so every call performs
one storage read.  On a hit, the stored bytes are decoded (`atob`, the
inverse of the `btoa` used when storing, modelled as the identity on the
byte list) and re-imported — no in-process cache exists.  On a miss, a
fresh key is generated (`freshKey` models the output of
`crypto.subtle.generateKey({name: 'AES-GCM', length: 256})`, 32 bytes),
exported, and written to the slot with `setItem` before returning. -/
def getOrCreateKey (slot : Option (List Nat)) (freshKey : List Nat) :
    KeyCall :=
  match slot with
  | some stored =>
    { key := stored, slot := some stored, storageReads := 1, storageWrites := 0 }
  | none =>
    { key := freshKey, slot := some freshKey, storageReads := 1, storageWrites := 1 }

/-- An authenticated symmetric cipher (the browser's `crypto.subtle`
AES-GCM implementation, which is a platform primitive outside this
repository): `enc plaintext key iv` and `dec ciphertext key iv`, where
decryption returns `none` when the triple does not authenticate (the
promise rejection surfaced as `DecryptionFailed`). -/
structure AEAD where
  enc : List Nat → List Nat → List Nat → List Nat
  dec : List Nat → List Nat → List Nat → Option (List Nat)

/-- `new TextEncoder().encode(data)`: the text as a byte sequence, modelled
at code-point granularity (injective, with `decodeText` as inverse, which
is all that the claims use). -/
def encodeText (s : String) : List Nat :=
  s.data.map Char.toNat

/-- `new TextDecoder().decode(bytes)`: inverse of `encodeText`. -/
def decodeText (ns : List Nat) : String :=
  String.mk (ns.map Char.ofNat)

/-- `encryptData(data, key)` (`src/lib/crypto.ts`): draws a fresh 12-byte
`iv` (modelled as the input `iv`), encrypts the encoded text under the key
with that iv, and returns the pair `{encrypted, iv}`. -/
def encryptData (A : AEAD) (data : String) (key : List Nat) (iv : List Nat) :
    List Nat × List Nat :=
  (A.enc (encodeText data) key iv, iv)

/-- `decryptData(encrypted, iv, key)` (`src/lib/crypto.ts`): decrypts and
decodes; a failed authentication propagates as `none`. -/
def decryptData (A : AEAD) (encrypted : List Nat) (iv : List Nat)
    (key : List Nat) : Option String :=
  (A.dec encrypted key iv).map decodeText

/-- A concrete toy authenticated cipher used to instantiate `AEAD` in the
witness: payload bytes are shifted by the key sum, and a checksum tag binds
payload, key and iv.  (It is not a secure cipher — it only needs to satisfy
the round-trip and the specific authentication-failure facts at the
witness's concrete inputs.) -/
def toyAEAD : AEAD where
  enc p k iv := (k.sum * 1000 + iv.sum * 100 + p.sum + p.length) :: p.map (· + k.sum)
  dec c k iv :=
    match c with
    | [] => none
    | t :: rest =>
      let p := rest.map (· - k.sum)
      if t = k.sum * 1000 + iv.sum * 100 + p.sum + p.length then some p else none

/-! ### Helper lemmas -/

theorem toNat_ofNat_of_lt (m : Nat) (h : m < 55296) :
    (Char.ofNat m).toNat = m := by
  have hv : Nat.isValidChar m := Or.inl h
  rw [Char.ofNat, dif_pos hv]
  rfl

theorem jsLowerChar_not_upper (c : Char) :
    ¬(65 ≤ (jsLowerChar c).toNat ∧ (jsLowerChar c).toNat ≤ 90) := by
  unfold jsLowerChar
  by_cases h : 65 ≤ c.toNat ∧ c.toNat ≤ 90
  · have hb : (65 ≤ c.toNat && c.toNat ≤ 90) = true := by
      simp [decide_eq_true_eq, h.1, h.2]
    rw [if_pos hb]
    rw [toNat_ofNat_of_lt (c.toNat + 32) (by omega)]
    omega
  · have hb : (65 ≤ c.toNat && c.toNat ≤ 90) = false := by
      simp only [Bool.and_eq_false_iff, decide_eq_false_iff_not]
      omega
    rw [if_neg (by simp [hb])]
    omega

theorem splitWsGo_mem (cs : List Char) (cur : List Char) (t : List Char)
    (ht : t ∈ splitWsGo cur cs) : ∀ c ∈ t, c ∈ cur ∨ c ∈ cs := by
  induction cs generalizing cur with
  | nil =>
    simp only [splitWsGo, List.mem_singleton] at ht
    subst ht
    intro c hc
    exact Or.inl (List.mem_reverse.mp hc)
  | cons c0 rest ih =>
    simp only [splitWsGo] at ht
    by_cases hsp : isJsSpace c0
    · rw [if_pos hsp] at ht
      rcases List.mem_cons.mp ht with h | h
      · subst h
        intro c hc
        exact Or.inl (List.mem_reverse.mp hc)
      · intro c hc
        rcases ih [] h c hc with h' | h'
        · exact absurd h' (List.not_mem_nil c)
        · exact Or.inr (List.mem_cons_of_mem _ h')
    · rw [if_neg hsp] at ht
      intro c hc
      rcases ih (c0 :: cur) ht c hc with h' | h'
      · rcases List.mem_cons.mp h' with h'' | h''
        · exact Or.inr (h'' ▸ List.mem_cons_self _ _)
        · exact Or.inl h''
      · exact Or.inr (List.mem_cons_of_mem _ h')

theorem splitWsGo_no_space (cs : List Char) (cur : List Char)
    (hcur : ∀ c ∈ cur, isJsSpace c = false) (t : List Char)
    (ht : t ∈ splitWsGo cur cs) : ∀ c ∈ t, isJsSpace c = false := by
  induction cs generalizing cur with
  | nil =>
    simp only [splitWsGo, List.mem_singleton] at ht
    subst ht
    intro c hc
    exact hcur c (List.mem_reverse.mp hc)
  | cons c0 rest ih =>
    simp only [splitWsGo] at ht
    by_cases hsp : isJsSpace c0
    · rw [if_pos hsp] at ht
      rcases List.mem_cons.mp ht with h | h
      · subst h
        intro c hc
        exact hcur c (List.mem_reverse.mp hc)
      · exact ih [] (by simp) h
    · rw [if_neg hsp] at ht
      refine ih (c0 :: cur) ?_ ht
      intro c hc
      rcases List.mem_cons.mp hc with h'' | h''
      · subst h''
        exact Bool.eq_false_iff.mpr hsp
      · exact hcur c h''

theorem mem_stripped_word (text : String) (c : Char)
    (hc : c ∈ (text.data.map jsLowerChar).filter
      (fun c => isWordChar c || isJsSpace c))
    (hns : isJsSpace c = false) : isLowerTokenChar c = true := by
  rcases List.mem_filter.mp hc with ⟨hmem, hcl⟩
  rcases List.mem_map.mp hmem with ⟨c0, _, hc0⟩
  have hw : isWordChar c = true := by
    rcases Bool.or_eq_true_iff.mp hcl with h | h
    · exact h
    · exact absurd h (by simp [hns])
  have hup := jsLowerChar_not_upper c0
  rw [hc0] at hup
  simp only [isWordChar, Bool.or_eq_true_iff, Bool.and_eq_true,
    decide_eq_true_eq, beq_iff_eq] at hw
  simp only [isLowerTokenChar, Bool.or_eq_true_iff, Bool.and_eq_true,
    decide_eq_true_eq, beq_iff_eq]
  omega

/-- **C7 (amended).** `extractKeywords` is a total (hence deterministic,
failure-free) function and every element of its result has length strictly
greater than 3, is not in the fixed stop-word list, and consists only of
lowercase letters, digits and underscores (lowercase, punctuation-free).
The claim's "no duplicates" part is false: the result is a list that can
repeat a token (see the counterexample). -/
theorem C7_extract_props (text : String) (w : String)
    (hw : w ∈ extractKeywords text) :
    3 < w.length ∧ w ∉ stopwords ∧ ∀ c ∈ w.data, isLowerTokenChar c = true := by
  unfold extractKeywords at hw
  rcases List.mem_filter.mp hw with ⟨hmem, hcond⟩
  rcases Bool.and_eq_true_iff.mp hcond with ⟨hlen, hstop⟩
  refine ⟨by simpa using hlen, ?_, ?_⟩
  · intro hin
    rw [Bool.not_eq_true'] at hstop
    exact absurd (List.elem_eq_true_of_mem hin) (by simp [List.contains] at hstop ⊢; simp [hstop])
  · rcases List.mem_map.mp hmem with ⟨cs, hcs, hwcs⟩
    intro c hc
    have hcdata : c ∈ cs := by
      subst hwcs
      simpa using hc
    have hns : isJsSpace c = false :=
      splitWsGo_no_space _ [] (by simp) cs hcs c hcdata
    have hmem' := splitWsGo_mem _ [] cs hcs c hcdata
    rcases hmem' with h | h
    · exact absurd h (List.not_mem_nil c)
    · exact mem_stripped_word text c h hns

/-- **C7 (counterexample).** The result of `extractKeywords` is not a set:
on the text `"echo echo"` the token `"echo"` appears twice, refuting
"the result is a set of strings (no duplicates)". -/
theorem C7_counterexample :
    extractKeywords "echo echo" = ["echo", "echo"] ∧
      ¬(extractKeywords "echo echo").Nodup := by
  constructor
  · decide
  · decide

/-- **C7 (witness).** The amended theorem applied to the concrete text
`"Hello, world!"` and its keyword `"hello"`. -/
theorem C7_witness :
    3 < "hello".length ∧ "hello" ∉ stopwords ∧
      ∀ c ∈ "hello".data, isLowerTokenChar c = true :=
  C7_extract_props "Hello, world!" "hello" (by decide)

theorem saveMemory_fresh (store : List MemoryEntry) (id : String) (now : ℚ)
    (content : String) (importance : ℚ) (h : ∀ e ∈ store, e.id ≠ id) :
    saveMemory store id now content importance =
      some (store ++ [mkEntry id content importance now]) := by
  unfold saveMemory
  rw [if_neg]
  intro hany
  rcases List.any_eq_true.mp hany with ⟨e, he, heq⟩
  exact h e he (by simpa using heq)

/-- **C1 (counterexample).** The persisted entry contains the plaintext
itself: saving `"my secret note"` stores an entry whose `content` field is
exactly `"my secret note"` — there is no ciphertext and no nonce, refuting
"does not contain the plaintext text itself". -/
theorem C1_counterexample :
    (saveMemory [] "id0" 0 "my secret note" 5).map
        (fun es => es.map MemoryEntry.content) = some ["my secret note"] ∧
      (mkEntry "id0" "my secret note" 5 0).content = "my secret note" := by
  constructor
  · simp [saveMemory, mkEntry]
  · rfl

/-- **C1 (amended).** For every call `saveMemory(text, importance)` that
persists (fresh `id`), the persisted `MemoryEntry` stores the plaintext
`text` itself in its `content` field together with
`tags = extractKeywords text`, the given importance and timestamp; no
encrypted form and no nonce exist (the `MemoryEntry` type has no such
fields). -/
theorem C1_saveMemory_plaintext (store : List MemoryEntry) (id : String)
    (now : ℚ) (text : String) (importance : ℚ)
    (h : ∀ e ∈ store, e.id ≠ id) :
    saveMemory store id now text importance =
        some (store ++ [mkEntry id text importance now]) ∧
      (mkEntry id text importance now).content = text ∧
      (mkEntry id text importance now).tags = extractKeywords text :=
  ⟨saveMemory_fresh store id now text importance h, rfl, rfl⟩

/-- **C1 (witness).** The amended theorem at a concrete call. -/
theorem C1_witness :
    saveMemory [] "id0" 0 "pizza night friday" 7 =
        some ([] ++ [mkEntry "id0" "pizza night friday" 7 0]) ∧
      (mkEntry "id0" "pizza night friday" 7 0).content =
        "pizza night friday" ∧
      (mkEntry "id0" "pizza night friday" 7 0).tags =
        extractKeywords "pizza night friday" :=
  C1_saveMemory_plaintext [] "id0" 0 "pizza night friday" 7 (by simp)

/-- **C8 (counterexample).** `saveMemory` does not clamp: a caller-supplied
`importance = 15` is stored as `15`, which is outside `[1, 10]`. -/
theorem C8_counterexample :
    (saveMemory [] "id1" 0 "remember this fact" 15).map
        (fun es => es.map MemoryEntry.importance) = some [15] ∧
      ¬((15 : ℚ) ≤ 10) := by
  constructor
  · simp [saveMemory, mkEntry]
  · norm_num

/-- **C8 (amended).** The persisted entry's importance is exactly the
caller-supplied value, with no clamping into `[1, 10]`; an omitted
importance defaults to `5` (the TS default parameter). -/
theorem C8_importance_unclamped (store : List MemoryEntry) (id : String)
    (now : ℚ) (text : String) (importance : ℚ)
    (h : ∀ e ∈ store, e.id ≠ id) :
    (saveMemory store id now text importance).map
        (fun es => es.map MemoryEntry.importance) =
        some (store.map MemoryEntry.importance ++ [importance]) ∧
      saveMemoryDefault store id now text = saveMemory store id now text 5 := by
  refine ⟨?_, rfl⟩
  rw [saveMemory_fresh store id now text importance h]
  simp [mkEntry]

/-- **C8 (witness).** The amended theorem at the concrete out-of-range
importance `15`. -/
theorem C8_witness :
    (saveMemory [] "id1" 0 "remember this fact" 15).map
        (fun es => es.map MemoryEntry.importance) =
        some (([] : List MemoryEntry).map MemoryEntry.importance ++ [15]) ∧
      saveMemoryDefault [] "id1" 0 "remember this fact" =
        saveMemory [] "id1" 0 "remember this fact" 5 :=
  C8_importance_unclamped [] "id1" 0 "remember this fact" 15 (by simp)

/-- **C9 (confirmed).** `deleteMemory id` removes exactly the entry with
that `id` and leaves every other entry unchanged (membership is preserved
for all entries with a different id); when no entry has that `id` the call
is a no-op — the store, and in particular its size, is unchanged. -/
theorem C9_deleteMemory (store : List MemoryEntry) (id : String) :
    ((∀ e ∈ store, e.id ≠ id) →
        deleteMemory store id = store ∧
          (deleteMemory store id).length = store.length) ∧
      (∀ e, e ∈ deleteMemory store id ↔ e ∈ store ∧ e.id ≠ id) := by
  constructor
  · intro h
    have : deleteMemory store id = store := by
      unfold deleteMemory
      apply List.filter_eq_self.mpr
      intro e he
      simpa using h e he
    exact ⟨this, by rw [this]⟩
  · intro e
    unfold deleteMemory
    rw [List.mem_filter]
    simp

/-- **C9 (witness).** Deleting a nonexistent id from a concrete two-entry
store succeeds as a no-op with the size unchanged. -/
theorem C9_witness :
    deleteMemory [mkEntry "a" "hello world" 5 0, mkEntry "b" "pizza time" 5 0]
          "missing" =
        [mkEntry "a" "hello world" 5 0, mkEntry "b" "pizza time" 5 0] ∧
      (deleteMemory
          [mkEntry "a" "hello world" 5 0, mkEntry "b" "pizza time" 5 0]
          "missing").length =
        [mkEntry "a" "hello world" 5 0, mkEntry "b" "pizza time" 5 0].length :=
  (C9_deleteMemory
      [mkEntry "a" "hello world" 5 0, mkEntry "b" "pizza time" 5 0]
      "missing").1 (by simp [mkEntry])

/-- **C4 (counterexample).** With no key available (`keySlot = none`),
`saveMemory` does not fail with `KeyUnavailable`: it persists the plaintext
entry; and `retrieveRelevantMemory` does not return an empty list: it
returns its keyword-scored results. -/
theorem C4_counterexample :
    (saveMemoryApp ⟨[], none⟩ "id0" 0 "remember the pizza" 5).map
        (fun s => s.entries.map MemoryEntry.content) =
        some ["remember the pizza"] ∧
      retrieveApp ⟨[mkEntry "a" "hello world" 5 0], none⟩ "zzzz" =
        ["hello world"] := by
  constructor
  · simp [saveMemoryApp, saveMemory, mkEntry]
  · have hc : (extractKeywords "hello world").filter
        (fun t => (extractKeywords "zzzz").contains t) = [] := by decide
    simp only [retrieveApp, retrieveRelevantMemory, rankedEntries, keptEntries,
      scoredEntries, score, mkEntry, List.map_cons, List.map_nil,
      List.filter_cons, List.filter_nil, hc, List.length_nil]
    norm_num [List.insertionSort, List.orderedInsert]

/-- **C4 (amended).** Neither operation consults the encryption key:
`saveMemory`'s outcome and `retrieveRelevantMemory`'s result are identical
for every key-slot state, and with the key absent a write with a fresh id
still persists (it never fails with `KeyUnavailable`, and the read does not
degrade to an empty list). -/
theorem C4_key_not_consulted (es : List MemoryEntry)
    (ks ks' : Option (List Nat)) (id : String) (now : ℚ) (content : String)
    (importance : ℚ) (q : String) :
    (saveMemoryApp ⟨es, ks⟩ id now content importance).map AppState.entries =
        (saveMemoryApp ⟨es, ks'⟩ id now content importance).map
          AppState.entries ∧
      retrieveApp ⟨es, ks⟩ q = retrieveApp ⟨es, ks'⟩ q ∧
      ((∀ e ∈ es, e.id ≠ id) →
        saveMemoryApp ⟨es, none⟩ id now content importance ≠ none) := by
  refine ⟨?_, rfl, ?_⟩
  · simp only [saveMemoryApp]
    cases saveMemory es id now content importance <;> rfl
  · intro h
    simp only [saveMemoryApp, saveMemory_fresh es id now content importance h]
    simp

/-- **C4 (witness).** The amended theorem at a concrete store, with the
key slot absent on one side and present on the other. -/
theorem C4_witness :
    (saveMemoryApp ⟨[mkEntry "a" "hello world" 5 0], none⟩ "b" 0
          "pizza time" 5).map AppState.entries =
        (saveMemoryApp ⟨[mkEntry "a" "hello world" 5 0], some [1, 2]⟩ "b" 0
          "pizza time" 5).map AppState.entries ∧
      retrieveApp ⟨[mkEntry "a" "hello world" 5 0], none⟩ "zzzz" =
        retrieveApp ⟨[mkEntry "a" "hello world" 5 0], some [1, 2]⟩ "zzzz" ∧
      saveMemoryApp ⟨[mkEntry "a" "hello world" 5 0], none⟩ "b" 0
        "pizza time" 5 ≠ none :=
  ⟨(C4_key_not_consulted [mkEntry "a" "hello world" 5 0] none (some [1, 2])
      "b" 0 "pizza time" 5 "zzzz").1,
    (C4_key_not_consulted [mkEntry "a" "hello world" 5 0] none (some [1, 2])
      "b" 0 "pizza time" 5 "zzzz").2.1,
    (C4_key_not_consulted [mkEntry "a" "hello world" 5 0] none
      (some [1, 2]) "b" 0 "pizza time" 5 "zzzz").2.2
      (by simp [mkEntry])⟩

/-- **C6 (counterexample).** There is no in-process cache: after a first
call has created and persisted a key, a second call still performs a
`localStorage` read (`storageReads = 1`, not `0`), refuting "every
subsequent call in the same process returns a cached key instance without
accessing persistent storage". -/
theorem C6_counterexample :
    (getOrCreateKey (getOrCreateKey none (List.range 32)).slot
        (List.range 32)).storageReads = 1 ∧
      ¬(getOrCreateKey (getOrCreateKey none (List.range 32)).slot
          (List.range 32)).storageReads = 0 := by
  constructor
  · rfl
  · decide

/-- **C6 (amended).** Every call (not only the first) reads the persisted
slot: on a hit it re-imports and returns the stored key bytes without
writing; on a miss it returns the freshly generated key (256-bit when the
generator yields 32 bytes) and persists its exported byte form; there is no
in-process cache, so subsequent calls reload from persistent storage. -/
theorem C6_getOrCreateKey (slot : Option (List Nat)) (freshKey : List Nat) :
    (getOrCreateKey slot freshKey).storageReads = 1 ∧
      (∀ b, slot = some b →
        getOrCreateKey slot freshKey =
          { key := b, slot := some b, storageReads := 1, storageWrites := 0 }) ∧
      (slot = none →
        getOrCreateKey slot freshKey =
          { key := freshKey, slot := some freshKey, storageReads := 1,
            storageWrites := 1 }) ∧
      (freshKey.length = 32 → slot = none →
        (getOrCreateKey slot freshKey).key.length = 32) := by
  refine ⟨?_, ?_, ?_, ?_⟩
  · cases slot <;> rfl
  · intro b hb
    subst hb
    rfl
  · intro hn
    subst hn
    rfl
  · intro hlen hn
    subst hn
    simpa [getOrCreateKey] using hlen

/-- **C6 (witness).** The amended theorem at a concrete empty slot and a
concrete 32-byte fresh key. -/
theorem C6_witness :
    (getOrCreateKey none (List.range 32)).storageReads = 1 ∧
      (∀ b, (none : Option (List Nat)) = some b →
        getOrCreateKey none (List.range 32) =
          { key := b, slot := some b, storageReads := 1, storageWrites := 0 }) ∧
      ((none : Option (List Nat)) = none →
        getOrCreateKey none (List.range 32) =
          { key := List.range 32, slot := some (List.range 32),
            storageReads := 1, storageWrites := 1 }) ∧
      ((List.range 32).length = 32 → (none : Option (List Nat)) = none →
        (getOrCreateKey none (List.range 32)).key.length = 32) :=
  C6_getOrCreateKey none (List.range 32)

/-- **C2 (counterexample).** The code counts tag occurrences with
multiplicity, not the size of a set intersection: the entry saved from
`"echo echo judo"` has tags `["echo", "echo", "judo"]`, and against the
query keywords `["echo", "gold"]` the code scores it
`2 * 2 + 5/10 = 9/2`, while the spec's set-intersection formula gives
`2 * 1 + 5/10 = 5/2`. -/
theorem C2_counterexample :
    score (extractKeywords "echo gold") (mkEntry "i" "echo echo judo" 5 0) =
        9 / 2 ∧
      specScore (extractKeywords "echo gold")
          (mkEntry "i" "echo echo judo" 5 0) = 5 / 2 ∧
      (9 / 2 : ℚ) ≠ 5 / 2 := by
  have hf : ((mkEntry "i" "echo echo judo" 5 0).tags.filter
      (fun t => (extractKeywords "echo gold").contains t)) =
      ["echo", "echo"] := by decide
  have hg : ((mkEntry "i" "echo echo judo" 5 0).tags.dedup.filter
      (fun t => (extractKeywords "echo gold").contains t)) = ["echo"] := by
    decide
  have hi : (mkEntry "i" "echo echo judo" 5 0).importance = 5 := rfl
  refine ⟨?_, ?_, by norm_num⟩
  · unfold score
    rw [hf, hi]
    norm_num
  · unfold specScore
    rw [hg, hi]
    norm_num

/-- **C2 (amended).** The score is `10 * 0 + 2 * n + importance / 10`,
where `n` counts the entry's tag occurrences (with multiplicity) that lie
in the query's keywords and the semantic term is identically `0` (entries
carry no embedding); whenever the entry's tags happen to be duplicate-free
this agrees with the spec's set-intersection formula `specScore`. -/
theorem C2_score_formula (keywords : List String) (m : MemoryEntry) :
    score keywords m =
        10 * 0 +
          2 * ((m.tags.filter (fun t => keywords.contains t)).length : ℚ) +
          m.importance / 10 ∧
      (m.tags.Nodup → score keywords m = specScore keywords m) := by
  constructor
  · unfold score
    ring
  · intro hnd
    unfold score specScore
    rw [List.Nodup.dedup hnd]
    ring

/-- **C2 (witness).** The amended theorem at a concrete entry whose tags
are duplicate-free, with the `Nodup` hypothesis discharged. -/
theorem C2_witness :
    score ["hello"] (mkEntry "i" "hello world" 5 0) =
        10 * 0 +
          2 * (((mkEntry "i" "hello world" 5 0).tags.filter
            (fun t => (["hello"] : List String).contains t)).length : ℚ) +
          (mkEntry "i" "hello world" 5 0).importance / 10 ∧
      score ["hello"] (mkEntry "i" "hello world" 5 0) =
        specScore ["hello"] (mkEntry "i" "hello world" 5 0) :=
  ⟨(C2_score_formula ["hello"] (mkEntry "i" "hello world" 5 0)).1,
    (C2_score_formula ["hello"] (mkEntry "i" "hello world" 5 0)).2
      (by decide)⟩

theorem mem_keptEntries_pos (store : List MemoryEntry)
    (keywords : List String) (p : String × ℚ)
    (hp : p ∈ keptEntries store keywords) : 0 < p.2 := by
  unfold keptEntries at hp
  exact of_decide_eq_true (List.mem_filter.mp hp).2

/-- **C3 (counterexample).** The filter threshold is `score > 0`, not
`score > 3`: an entry with importance 5 and no keyword overlap scores
`1/2`, which is at or below 3, yet `retrieveRelevantMemory` returns it
rather than excluding it. -/
theorem C3_counterexample :
    retrieveRelevantMemory [mkEntry "a" "hello world" 5 0] "zzzz" =
        ["hello world"] ∧
      score (extractKeywords "zzzz") (mkEntry "a" "hello world" 5 0) ≤ 3 := by
  have hc : (extractKeywords "hello world").filter
      (fun t => (extractKeywords "zzzz").contains t) = [] := by decide
  constructor
  · simp only [retrieveRelevantMemory, rankedEntries, keptEntries,
      scoredEntries, score, mkEntry, List.map_cons, List.map_nil,
      List.filter_cons, List.filter_nil, hc, List.length_nil]
    norm_num [List.insertionSort, List.orderedInsert]
  · simp only [score, mkEntry, hc, List.length_nil]
    norm_num

/-- **C3 (amended).** `retrieveRelevantMemory` excludes every entry whose
score is at or below the fixed minimum threshold `0` (it keeps exactly the
entries with positive score), orders the kept entries by descending score,
and returns at most 5 results — `min (#kept) 5` — even when more than 5
qualify. -/
theorem C3_retrieval_pipeline (store : List MemoryEntry) (q : String) :
    List.Sorted scoreGE (rankedEntries store (extractKeywords q)) ∧
      (∀ p ∈ rankedEntries store (extractKeywords q), 0 < p.2) ∧
      (∀ m ∈ store, score (extractKeywords q) m ≤ 0 →
        (m.content, score (extractKeywords q) m) ∉
          keptEntries store (extractKeywords q)) ∧
      (retrieveRelevantMemory store q).length =
        min (keptEntries store (extractKeywords q)).length 5 ∧
      (retrieveRelevantMemory store q).length ≤ 5 := by
  refine ⟨List.sorted_insertionSort scoreGE _, ?_, ?_, ?_, ?_⟩
  · intro p hp
    exact mem_keptEntries_pos store (extractKeywords q) p
      ((List.mem_insertionSort scoreGE).mp hp)
  · intro m _ hle hmem
    exact absurd (mem_keptEntries_pos store (extractKeywords q) _ hmem)
      (by simpa using hle)
  · unfold retrieveRelevantMemory rankedEntries
    rw [List.length_map, List.length_take, List.length_insertionSort,
      Nat.min_comm]
  · unfold retrieveRelevantMemory
    rw [List.length_map, List.length_take]
    exact Nat.min_le_left 5 _

/-- **C3 (witness).** The amended theorem's ranking and cardinality
conclusions at a concrete one-entry store. -/
theorem C3_witness :
    List.Sorted scoreGE (rankedEntries [mkEntry "a" "hello world" 5 0]
        (extractKeywords "zzzz")) ∧
      (retrieveRelevantMemory [mkEntry "a" "hello world" 5 0] "zzzz").length =
        min (keptEntries [mkEntry "a" "hello world" 5 0]
          (extractKeywords "zzzz")).length 5 ∧
      (retrieveRelevantMemory [mkEntry "a" "hello world" 5 0] "zzzz").length
        ≤ 5 :=
  ⟨(C3_retrieval_pipeline [mkEntry "a" "hello world" 5 0] "zzzz").1,
    (C3_retrieval_pipeline [mkEntry "a" "hello world" 5 0] "zzzz").2.2.2.1,
    (C3_retrieval_pipeline [mkEntry "a" "hello world" 5 0] "zzzz").2.2.2.2⟩

/-- **C10 (confirmed).** Any entry with importance ≥ 1 scores strictly
above the filter's cutoff (`> 0`) for every query — its score is at least
`importance / 10 > 0` — so over a store of such entries
`retrieveRelevantMemory` returns `min n 5` results even when the query
shares no keyword with any entry; and with no keyword overlap at all the
scored pairs are exactly `(content, importance / 10)`, so the descending
sort ranks by importance. -/
theorem C10_min_results (store : List MemoryEntry) (q : String)
    (himp : ∀ m ∈ store, 1 ≤ m.importance) :
    (∀ m ∈ store, 0 < score (extractKeywords q) m) ∧
      (retrieveRelevantMemory store q).length = min store.length 5 ∧
      List.Sorted scoreGE (rankedEntries store (extractKeywords q)) ∧
      ((∀ m ∈ store,
          m.tags.filter (fun t => (extractKeywords q).contains t) = []) →
        scoredEntries store (extractKeywords q) =
          store.map (fun m => (m.content, m.importance / 10))) := by
  have hpos : ∀ m ∈ store, 0 < score (extractKeywords q) m := by
    intro m hm
    have h1 := himp m hm
    have h2 : (0 : ℚ) ≤
        ((m.tags.filter
          (fun t => (extractKeywords q).contains t)).length : ℚ) * 2 := by
      positivity
    unfold score
    linarith
  have hkept : keptEntries store (extractKeywords q) =
      scoredEntries store (extractKeywords q) := by
    unfold keptEntries
    apply List.filter_eq_self.mpr
    intro p hp
    apply decide_eq_true
    unfold scoredEntries at hp
    rcases List.mem_map.mp hp with ⟨m, hm, hpm⟩
    subst hpm
    exact hpos m hm
  refine ⟨hpos, ?_, List.sorted_insertionSort scoreGE _, ?_⟩
  · unfold retrieveRelevantMemory rankedEntries
    rw [List.length_map, List.length_take, List.length_insertionSort, hkept]
    unfold scoredEntries
    rw [List.length_map, Nat.min_comm]
  · intro hno
    unfold scoredEntries
    apply List.map_congr_left
    intro m hm
    unfold score
    rw [hno m hm]
    norm_num

/-- **C10 (witness).** A concrete two-entry store (importances 7 and 2)
and a query sharing no keyword with either entry: the retrieval still
returns `min 2 5` results, and the scored pairs degrade to
`(content, importance / 10)`. -/
theorem C10_witness :
    (retrieveRelevantMemory
        [mkEntry "a" "hello world" 7 0, mkEntry "b" "pizza time" 2 0]
        "zzzz").length =
      min [mkEntry "a" "hello world" 7 0, mkEntry "b" "pizza time" 2 0].length
        5 :=
  (C10_min_results
    [mkEntry "a" "hello world" 7 0, mkEntry "b" "pizza time" 2 0] "zzzz"
    (by
      intro m hm
      simp only [List.mem_cons, List.not_mem_nil, or_false] at hm
      rcases hm with h | h <;> subst h <;> norm_num [mkEntry])).2.1

theorem decodeText_encodeText (s : String) : decodeText (encodeText s) = s := by
  rcases s with ⟨data⟩
  simp [encodeText, decodeText, List.map_map, Function.comp_def,
    Char.ofNat_toNat]

/-- **C5 (confirmed).** The wrappers `encryptData`/`decryptData` preserve
the AEAD contract of the underlying cipher (the browser's AES-GCM,
modelled abstractly as `A : AEAD`): whenever the primitive round-trips on
the encoded plaintext, decrypting the `(ciphertext, nonce)` pair produced
by `encryptData` under the same key yields the plaintext again; and
whenever the primitive rejects a wrong key, a wrong nonce, or a mutated
ciphertext, `decryptData` fails (`none`, surfaced as `DecryptionFailed`)
rather than returning a value. -/
theorem C5_crypto_roundtrip (A : AEAD) (p : String)
    (k k' iv iv' c' : List Nat)
    (hrt : A.dec (A.enc (encodeText p) k iv) k iv = some (encodeText p))
    (hkey : A.dec (A.enc (encodeText p) k iv) k' iv = none)
    (hiv : A.dec (A.enc (encodeText p) k iv) k iv' = none)
    (hct : A.dec c' k iv = none) :
    decryptData A (encryptData A p k iv).1 (encryptData A p k iv).2 k =
        some p ∧
      decryptData A (encryptData A p k iv).1 iv k' = none ∧
      decryptData A (encryptData A p k iv).1 iv' k = none ∧
      decryptData A c' iv k = none := by
  refine ⟨?_, ?_, ?_, ?_⟩ <;>
    simp [decryptData, encryptData, hrt, hkey, hiv, hct,
      decodeText_encodeText]

/-- **C5 (witness).** The theorem instantiated at the concrete toy cipher
with plaintext `"ab"`, key `[1]`, wrong key `[2]`, nonce `[3]`, wrong
nonce `[4]` and mutated ciphertext `[0]`; every AEAD hypothesis is
discharged by computation. -/
theorem C5_witness :
    decryptData toyAEAD (encryptData toyAEAD "ab" [1] [3]).1
        (encryptData toyAEAD "ab" [1] [3]).2 [1] = some "ab" ∧
      decryptData toyAEAD (encryptData toyAEAD "ab" [1] [3]).1 [3] [2] =
        none ∧
      decryptData toyAEAD (encryptData toyAEAD "ab" [1] [3]).1 [4] [1] =
        none ∧
      decryptData toyAEAD [0] [3] [1] = none :=
  C5_crypto_roundtrip toyAEAD "ab" [1] [2] [3] [4] [0] (by decide)
    (by decide) (by decide) (by decide)
